import Mathlib

/-!
Shallow embedding of the SecuritySpy client core:
`asyn/http.py` (HeaderDict, Request reply parsing, body framing) and
`spy/core.py` (event-tap dispatch, camera reconciliation).

Python strings are modelled as Lean `String`, with the string
primitives re-implemented over `List Char` so that they reduce in the
kernel.  Python dicts (which preserve insertion order) are modelled as
association lists.  Python object identity is modelled by an explicit
`ident : Nat` token on camera records.
-/

/-- Python `str.lower()` (ASCII view, as used on header tokens). -/
def pyLower (s : String) : String := String.mk (s.data.map Char.toLower)

/-- Python `str.capitalize()`: first character upper-cased, the rest lower-cased. -/
def pyCapitalize (s : String) : String :=
  match s.data with
  | [] => ""
  | c :: cs => String.mk (c.toUpper :: cs.map Char.toLower)

/-- Python `str.split('-')` over the character list. -/
def splitDash : List Char → List String
  | [] => [""]
  | c :: rest =>
    let r := splitDash rest
    if c = '-' then "" :: r
    else
      match r with
      | [] => [String.mk [c]]
      | s :: ss => (String.mk (c :: s.data)) :: ss

/-- Python `'-'.join(...)`. -/
def joinDash : List String → String
  | [] => ""
  | [s] => s
  | s :: rest => String.mk (s.data ++ '-' :: (joinDash rest).data)

/-- Boolean list-prefix test (Python `str.startswith` on the char level). -/
def isPre : List Char → List Char → Bool
  | [], _ => true
  | _, [] => false
  | a :: p, b :: s => a = b && isPre p s

/-- Python `str.startswith(p)`. -/
def pyStartsWith (s p : String) : Bool := isPre p.data s.data

/-- Python dict lookup: the value of the first (and, for dicts, only)
entry with the given key. -/
def pyFind {α β : Type} [DecidableEq α] (m : List (α × β)) (k : α) : Option β :=
  (List.find? (fun p => p.1 = k) m).map (fun p => p.2)

/-- Python dict assignment `m[k] = v`: replace the value in place if
the key is present, otherwise append a new entry. -/
def pySet {α β : Type} [DecidableEq α] (m : List (α × β)) (k : α) (v : β) : List (α × β) :=
  if m.any (fun p => p.1 = k) then
    m.map (fun p => if p.1 = k then (k, v) else p)
  else
    m ++ [(k, v)]

/-- Python dict deletion `del m[k]`. -/
def pyDel {α β : Type} [DecidableEq α] (m : List (α × β)) (k : α) : List (α × β) :=
  m.filter (fun p => p.1 ≠ k)

namespace HeaderDict

/-- A value slot of Python's `HeaderDict`: either a single string or a
list collecting multiples (`http.py` stores a `str` first, turning it
into a `list` on the second `add` of the same key). -/
inductive HVal where
  | one (s : String)
  | many (l : List String)
deriving DecidableEq

/-- `HeaderDict` contents: a Python dict in insertion order. -/
abbrev T := List (String × HVal)


/-- `HeaderDict._key`: canonicalize a header name,
`'-'.join([s.capitalize() for s in value.split('-')])`. -/
def headerKey (value : String) : String :=
  joinDash ((splitDash value.data).map pyCapitalize)

/-- `HeaderDict.add`: canonicalize the key and collect repeated values
into an ordered list. -/
def add (m : T) (key value : String) : T :=
  match pyFind m (headerKey key) with
  | some (.many l) => pySet m (headerKey key) (.many (l ++ [value]))
  | some (.one prior) => pySet m (headerKey key) (.many [prior, value])
  | none => pySet m (headerKey key) (.one value)

/-- Build a `HeaderDict` by repeated `add` from empty. -/
def addAll (l : List (String × String)) : T :=
  l.foldl (fun m p => add m p.1 p.2) []

/-- All values stored under a (canonicalized) key, in stored order. -/
def values (m : T) (key : String) : List String :=
  match pyFind m (headerKey key) with
  | none => []
  | some (.one v) => [v]
  | some (.many l) => l

/-- `HeaderDict._matches(pattern, value)`: both sides are lower-cased
first; lower-casing a `None` spec raises `AttributeError`, modelled as
`Except.error`.  (The code's `value is None` disjunct is tested after
the re-assignment `value = value.lower()`, so it is dead.) -/
def pyMatches (pattern : String) (value : Option String) : Except String Bool :=
  let p := pyLower pattern
  match value with
  | none => .error "AttributeError"
  | some v0 =>
    let v := pyLower v0
    .ok (p = v || pyStartsWith p (v ++ ";"))

/-- The loop of `HeaderDict.match` over a list value: return the first
stored value matching the spec. -/
def firstMatch (l : List String) (spec : Option String) : Except String (Option String) :=
  match l with
  | [] => .ok none
  | v :: rest =>
    match pyMatches v spec with
    | .error e => .error e
    | .ok true => .ok (some v)
    | .ok false => firstMatch rest spec

/-- `HeaderDict.match(key, spec)`: canonicalize the key, then return a
full or semicolon-prefix match among the stored value(s). -/
def matchKey (m : T) (key : String) (spec : Option String) : Except String (Option String) :=
  match pyFind m (headerKey key) with
  | none => .ok none
  | some (.many l) => firstMatch l spec
  | some (.one v) =>
    match pyMatches v spec with
    | .error e => .error e
    | .ok b => .ok (if b then some v else none)

/-- The match predicate on one stored value against a present spec, as
the claim reads it: lower-cased equality, or the lower-cased stored
value starts with the lower-cased spec followed by a semicolon. -/
def matchesSpec (v s : String) : Prop :=
  pyLower v = pyLower s ∨ pyStartsWith (pyLower v) (pyLower s ++ ";") = true

instance (v s : String) : Decidable (matchesSpec v s) := by
  unfold matchesSpec; infer_instance

end HeaderDict

/-- The header handling of `Request.incoming` on state `'header'`:
the code runs `self.h_reply[key] = value` — a plain dict item
assignment on the `HeaderDict`, with no key canonicalization and no
accumulation of repeats. -/
def replyHeaderLine (h : HeaderDict.T) (key value : String) : HeaderDict.T :=
  pySet h key (.one value)

/-- Reply-header parsing: fold `Request.incoming`'s `'header'` branch
over the header lines of a reply, starting from the empty `h_reply`. -/
def replyHeaders (lines : List (String × String)) : HeaderDict.T :=
  lines.foldl (fun h p => replyHeaderLine h p.1 p.2) []

/-! ## Body framing (`Request._prepare_body`) -/

/-- The two reply-body filters `http.py` can insert. -/
inductive BodyFilter where
  | chunked
  | gzip
deriving DecidableEq

/-- Modelled from the spec: the Filter Pipeline's `insert(filter, sink,
pushback)` places the filter immediately upstream of the sink (spec
4.1); `asyn`'s `FilterCallable.insert_filter` itself is not under
`src/`.  With the body consumer (`Request.incoming`) as the sink, each
insertion appends the new filter at the downstream end of the chain,
so an earlier-inserted filter acts earlier in data-flow order. -/
def insertFilter (p : List BodyFilter) (f : BodyFilter) : List BodyFilter :=
  p ++ [f]

/-- The request state touched by `_prepare_body`: the scanner's active
rule set (`None` clears it), the reply-body accumulator, and the chain
of reply filters in upstream-to-downstream (data-flow) order. -/
structure BodyState where
  scan : Option Unit
  bodyReply : List UInt8
  pipeline : List BodyFilter
deriving DecidableEq

/-- Python truthiness of `self.h_reply.match(key, spec)` as used in
`if self.h_reply.match(...)`: a returned string is truthy unless
empty; `None` (and the impossible error case) is falsy. -/
def matchTruthy (m : HeaderDict.T) (key spec : String) : Bool :=
  match HeaderDict.matchKey m key (some spec) with
  | .ok (some v) => v ≠ ""
  | _ => false

/-- `Request._prepare_body`: clear the scan rule set, reset the body
accumulator, then insert the chunked-decode filter if
`Transfer-Encoding` matches `chunked` and the decompression filter if
`Content-Encoding` matches `gzip`, each upstream of `self.incoming`. -/
def prepareBody (hReply : HeaderDict.T) : BodyState :=
  let s0 : BodyState := { scan := none, bodyReply := [], pipeline := [] }
  let s1 :=
    if matchTruthy hReply "Transfer-Encoding" "chunked" then
      { s0 with pipeline := insertFilter s0.pipeline .chunked }
    else s0
  if matchTruthy hReply "Content-Encoding" "gzip" then
    { s1 with pipeline := insertFilter s1.pipeline .gzip }
  else s1

/-! ## Camera model (`spy/core.py`) -/

/-- The per-camera arm-mode dictionary: `spy/core.py` keys it by
`ARM_MOTION` (`MotionCapture`), `ARM_CONTINUOUS` (`ContinuousCapture`)
and `ARM_ACTIONS` (`Actions`); the key set is fixed, so it is a record
of three booleans. -/
structure Armed where
  motion : Bool
  continuous : Bool
  actions : Bool
deriving DecidableEq

/-- A `Camera` object's state, as built by `Camera.__init__` from one
`++systemInfo` camera descriptor.  `ident` models Python object
identity (`id(self)`); `classifications` holds the parsed `CLASSIFY`
map (value `none` models an unparsable count token). -/
structure Camera where
  ident : Nat
  number : Nat
  name : String
  connected : Bool
  size : Int × Int
  armed : Armed
  audio : Bool
  device : String
  ptzCapabilities : Int
  sensitivity : Int
  devtype : String
  classifications : List (String × Option Int)
deriving DecidableEq

/-- Notifications emitted by the reconciliation step (`added` on the
`SecuritySpy` object; `status`/`removed` on the `Camera` objects,
identified here by camera number; `ready` carries the camera map). -/
inductive SpyEvent where
  | added (c : Camera)
  | removed (n : Nat)
  | status (n : Nat)
  | ready (m : List (Nat × Camera))
deriving DecidableEq

/-- `self.cameras`: a Python dict from camera number to `Camera`, in
insertion order. -/
abbrev CamMap := List (Nat × Camera)


/-- The change condition of `Camera._refresh`: armed-state dict,
connectivity, or motion sensitivity differ. -/
def refreshChange (c upd : Camera) : Prop :=
  c.armed ≠ upd.armed ∨ c.connected ≠ upd.connected ∨ c.sensitivity ≠ upd.sensitivity

instance (c upd : Camera) : Decidable (refreshChange c upd) := by
  unfold refreshChange; infer_instance

/-- `Camera._refresh(update)`: compute the change flag, merge the new
`name`, `size`, `connected`, `armed` and `sensitivity` into `self` in
place (object identity `ident` is untouched), and call out `'status'`
exactly when the flag is set. -/
def refresh (c upd : Camera) : Camera × List SpyEvent :=
  let merged := { c with
    name := upd.name
    size := upd.size
    connected := upd.connected
    armed := upd.armed
    sensitivity := upd.sensitivity }
  (merged, if refreshChange c upd then [SpyEvent.status c.number] else [])

/-- The `for elem in system.find('cameralist')` loop of
`SecuritySpy._configure`: known camera numbers are `_refresh`ed in
place and checked off the `old_cameras` copy; unknown ones are
inserted and called out as `'added'`. -/
def configLoop (cams old : CamMap) (evs : List SpyEvent) :
    List Camera → CamMap × CamMap × List SpyEvent
  | [] => (cams, old, evs)
  | cam :: rest =>
    match pyFind cams cam.number with
    | some existing =>
      let r := refresh existing cam
      configLoop (pySet cams cam.number r.1) (pyDel old cam.number) (evs ++ r.2) rest
    | none =>
      configLoop (pySet cams cam.number cam) old (evs ++ [SpyEvent.added cam]) rest

/-- The camera-set update of `SecuritySpy._configure` (the part from
`old_cameras = dict(self.cameras)` to `self.callout('ready', ...)`):
reconcile a fresh snapshot (the ordered camera descriptors) against
the live map, then call out `'removed'` for each leftover and delete
it, then call out `'ready'` with the resulting map. -/
def configureCameras (cams : CamMap) (snap : List Camera) : CamMap × List SpyEvent :=
  let r := configLoop cams cams [] snap
  let cams2 := r.2.1.foldl (fun m p => pyDel m p.1) r.1
  (cams2, r.2.2 ++ r.2.1.map (fun p => SpyEvent.removed p.1) ++ [SpyEvent.ready cams2])

/-! ## Event tap (`SecuritySpy._event_stream`, `Camera._event_tap`) -/

/-- `MOTION_CODES`: trigger-reason bit values and their names, in
source order. -/
def MOTION_CODES : List (Nat × String) :=
  [(1, "motion"), (2, "audio"), (4, "applescript"), (8, "camera"),
   (16, "web"), (32, "crosscamera"), (64, "manual"), (128, "human"),
   (256, "vehicle")]

/-- `motions(codes)`: the set of names whose bit is set in the code;
`[] or ["motion"]` makes the empty selection fall back to
`{"motion"}`. -/
def motions (codes : Nat) : Finset String :=
  if (MOTION_CODES.filter (fun p => p.1 &&& codes ≠ 0)).map (fun p => p.2) = [] then {"motion"}
  else ((MOTION_CODES.filter (fun p => p.1 &&& codes ≠ 0)).map (fun p => p.2)).toFinset

/-- The trigger-type letter captured by the scan rule
`TRIGGER_([MA])`: the regex admits exactly `M` and `A`. -/
inductive TLetter where
  | M
  | A
deriving DecidableEq

/-- `TRIGGER_TYPES`. -/
def TRIGGER_TYPES : TLetter → String
  | .M => "recording"
  | .A => "action"

/-- `ARM_REPORTS`: change-report code letter to arm-state key; any
other captured word is a `KeyError`. -/
def ARM_REPORTS (w : String) : Option (Armed → Bool → Armed) :=
  if w = "M" then some (fun a b => { a with motion := b })
  else if w = "C" then some (fun a b => { a with continuous := b })
  else if w = "A" then some (fun a b => { a with actions := b })
  else none

/-- `classify(form)`: split on whitespace, pair up even/odd tokens,
lower-case the keys and parse the counts (`none` models the
`ValueError` a non-numeric count would raise in `int(value)`). -/
def pyClassify (form : String) : List (String × Option Int) :=
  let toks := (form.data.splitOnP (fun c => c = ' ')).filter (fun w => w ≠ [])
  let rec pairs : List (List Char) → List (String × Option Int)
    | key :: value :: rest =>
      (pyLower (String.mk key), (String.mk value).toInt?) :: pairs rest
    | _ => []
  pairs toks

/-- A camera-scoped event-tap record, after the scan regex has
captured its fields (states other than `change`/`unknown` all carry a
timestamp, sequence number and camera number, handled by the
dispatcher; the per-state payload is here). -/
inductive CamRecord where
  | motion
  | trigger (t : TLetter) (reasons : Nat)
  | classifyRec (text : String)
  | online
  | offline
  | errorRec (text : String)
  | active
  | passive
  | arm (w : String)
  | disarm (w : String)
deriving DecidableEq

/-- Callouts and side effects of `Camera._event_tap`. -/
inductive CamAction where
  | calloutCtx (rec : CamRecord)
  | calloutClassify (m : List (String × Option Int))
  | calloutTrigger (t : String) (reasons : Finset String)
  | spyUpdate
  | keyError
deriving DecidableEq

/-- `Camera._event_tap(ctx, *args)`: update camera state per record
and call out; `classify` and `trigger` return early with their
specific callout, every other branch falls through to
`self.callout(ctx, *args)`. -/
def cameraEventTap (c : Camera) (rec : CamRecord) : Camera × List CamAction :=
  match rec with
  | .active => ({ c with armed := { c.armed with motion := true } }, [.calloutCtx rec])
  | .passive => ({ c with armed := { c.armed with motion := false } }, [.calloutCtx rec])
  | .arm w =>
    match ARM_REPORTS w with
    | some setA => ({ c with armed := setA c.armed true }, [.calloutCtx rec])
    | none => (c, [.keyError])
  | .disarm w =>
    match ARM_REPORTS w with
    | some setA => ({ c with armed := setA c.armed false }, [.calloutCtx rec])
    | none => (c, [.keyError])
  | .classifyRec text =>
    ({ c with classifications := pyClassify text }, [.calloutClassify (pyClassify text)])
  | .trigger t reasons => (c, [.calloutTrigger (TRIGGER_TYPES t) (motions reasons)])
  | .online => ({ c with connected := true }, [.calloutCtx rec])
  | .offline => ({ c with connected := false }, [.spyUpdate, .calloutCtx rec])
  | .motion => (c, [.calloutCtx rec])
  | .errorRec _ => (c, [.calloutCtx rec])

/-- A context delivered to the `reply` callback inside
`SecuritySpy._event_stream`. -/
inductive EventCtx where
  | ioError (e : String)
  | headers (status : String)
  | body
  | change
  | unknown (line : String)
  | cam (ts : String) (seq : Nat) (cnum : Nat) (rec : CamRecord)
deriving DecidableEq

/-- Actions the `reply` callback of `_event_stream` performs. -/
inductive TapAction where
  | closeEvents
  | calloutCtxError (e : String)
  | calloutEventTap (status : String)
  | installTapScan
  | calloutStatusError (status : String)
  | restartTap
  | update
  | camDispatch (cnum : Nat) (rec : CamRecord)
deriving DecidableEq

/-- The `reply` callback of `SecuritySpy._event_stream`, as a function
from the delivered context (and the current camera map) to the list of
actions taken, in order.  On an I/O error: `_close_events` then
`callout(ctx)`.  On `'headers'`: `callout('event tap', status)`, then
install the event-tap rule set on HTTP 200, else tear down and call
out a `StatusError`.  On `'body'` (the peer closed): `_close_events`
then `_event_stream()` again.  Tap records: `'unknown'` calls out an
error; `'change'` triggers `update()`; any other record looks up its
camera number and either triggers `update()` (unknown number) or
dispatches to the camera. -/
def eventReply (cams : CamMap) (ctx : EventCtx) : List TapAction :=
  match ctx with
  | .ioError e => [.closeEvents, .calloutCtxError e]
  | .headers status =>
    if status = "200" then [.calloutEventTap status, .installTapScan]
    else [.calloutEventTap status, .closeEvents, .calloutStatusError status]
  | .body => [.closeEvents, .restartTap]
  | .unknown line => [.calloutCtxError ("unknown event tap (" ++ line ++ ")")]
  | .change => [.update]
  | .cam _ _ cnum rec =>
    match pyFind cams cnum with
    | none => [.update]
    | some _ => [.camDispatch cnum rec]

/-! ## Reference definition from the claim's words, and concrete fixtures -/

/-- The trigger reason set exactly as claim C9 words it: the set of
reason names whose code bit is set in the bitmask (no fallback).  Used
only to compare the code's `motions` against the claim. -/
def claimReasonSet (mask : Nat) : Finset String :=
  ((MOTION_CODES.filter (fun p => p.1 &&& mask ≠ 0)).map (fun p => p.2)).toFinset

/-- Fixture builder: a camera record with the fields the claims vary. -/
def mkCam (ident number : Nat) (name : String) (connected : Bool)
    (armed : Armed) (sens : Int) : Camera :=
  { ident := ident, number := number, name := name, connected := connected,
    size := (640, 480), armed := armed, audio := false, device := "dev",
    ptzCapabilities := 0, sensitivity := sens, devtype := "IP",
    classifications := [] }

def armedM : Armed := ⟨true, false, false⟩

def cam1 : Camera := mkCam 101 1 "Front" true armedM 50
def cam2 : Camera := mkCam 102 2 "Back" true armedM 50
def cam3 : Camera := mkCam 103 3 "Side" false armedM 60
def snap2 : Camera := mkCam 202 2 "Back door" true armedM 50
def snap3 : Camera := mkCam 203 3 "Side yard" false armedM 60
def snap4 : Camera := mkCam 204 4 "Garage" true armedM 40

/-- Live map {1, 2, 3} for the reconciliation-completeness scenario. -/
def liveMap : CamMap := [(1, cam1), (2, cam2), (3, cam3)]

/-- Fresh snapshot {2, 3, 4} for the same scenario. -/
def snapList : List Camera := [snap2, snap3, snap4]

/-- The map the scenario must produce: 2 and 3 merged in place
(identities 102 and 103 kept, names refreshed), 4 inserted, 1 gone. -/
def mergedLive : CamMap :=
  [(2, { cam2 with name := "Back door" }),
   (3, { cam3 with name := "Side yard" }),
   (4, snap4)]

/-! ## Generic dict lemmas -/

section DictLemmas

variable {α β : Type} [DecidableEq α]

theorem find?_update_self (m : List (α × β)) (k : α) (v : β)
    (h : ∃ p ∈ m, p.1 = k) :
    List.find? (fun p => p.1 = k) (m.map (fun p => if p.1 = k then (k, v) else p)) =
      some (k, v) := by
  induction m with
  | nil => simp at h
  | cons q rest ih =>
    simp only [List.map_cons]
    by_cases hq : q.1 = k
    · simp [List.find?_cons, hq]
    · rw [if_neg hq]
      simp only [List.find?_cons, decide_eq_false hq]
      apply ih
      rcases h with ⟨p, hp, hpk⟩
      rcases List.mem_cons.mp hp with rfl | hp'
      · exact absurd hpk hq
      · exact ⟨p, hp', hpk⟩

theorem find?_update_ne (m : List (α × β)) (k k' : α) (v : β) (h : k' ≠ k) :
    List.find? (fun p => p.1 = k') (m.map (fun p => if p.1 = k then (k, v) else p)) =
      List.find? (fun p => p.1 = k') m := by
  induction m with
  | nil => rfl
  | cons q rest ih =>
    simp only [List.map_cons]
    by_cases hq : q.1 = k
    · have h1 : ¬ ((k : α) = k') := fun hk => h hk.symm
      have h2 : ¬ (q.1 = k') := by rw [hq]; exact h1
      rw [if_pos hq]
      simp only [List.find?_cons, decide_eq_false h1, decide_eq_false h2]
      exact ih
    · rw [if_neg hq]
      by_cases hq' : q.1 = k'
      · simp [List.find?_cons, hq']
      · simp only [List.find?_cons, decide_eq_false hq']
        exact ih

theorem pyFind_pySet_self (m : List (α × β)) (k : α) (v : β) :
    pyFind (pySet m k v) k = some v := by
  unfold pySet pyFind
  by_cases h : m.any (fun p => p.1 = k) = true
  · rw [if_pos h, find?_update_self]
    · rfl
    · simpa using h
  · rw [if_neg h, List.find?_append]
    have hn : List.find? (fun p => p.1 = k) m = none := by
      rw [List.find?_eq_none]
      intro p hp hpk
      exact h (List.any_eq_true.mpr ⟨p, hp, hpk⟩)
    simp [hn, List.find?_cons]

theorem pyFind_pySet_ne (m : List (α × β)) (k k' : α) (v : β) (h : k' ≠ k) :
    pyFind (pySet m k v) k' = pyFind m k' := by
  unfold pySet pyFind
  by_cases hm : m.any (fun p => p.1 = k) = true
  · rw [if_pos hm, find?_update_ne _ _ _ _ h]
  · rw [if_neg hm, List.find?_append]
    have h1 : ¬ ((k : α) = k') := fun hk => h hk.symm
    have hone : List.find? (fun p => p.1 = k') [(k, v)] = none := by
      simp [List.find?_cons, h1]
    cases hf : List.find? (fun p => p.1 = k') m <;> simp [hone, hf]

theorem pyFind_pyDel_self (m : List (α × β)) (k : α) :
    pyFind (pyDel m k) k = none := by
  unfold pyDel pyFind
  rw [List.find?_eq_none.mpr]
  · rfl
  · intro p hp hpk
    have := List.of_mem_filter hp
    simp only [decide_eq_true_eq] at this hpk
    exact this hpk

theorem pyFind_pyDel_ne (m : List (α × β)) (k k' : α) (h : k' ≠ k) :
    pyFind (pyDel m k) k' = pyFind m k' := by
  unfold pyDel pyFind
  congr 1
  induction m with
  | nil => rfl
  | cons q rest ih =>
    rw [List.filter_cons]
    by_cases hq : q.1 = k
    · have h2 : ¬ (q.1 = k') := by rw [hq]; exact fun hk => h hk.symm
      rw [if_neg (by simp [hq])]
      simp only [List.find?_cons, decide_eq_false h2]
      exact ih
    · rw [if_pos (by simp [hq])]
      by_cases hq' : q.1 = k'
      · simp [List.find?_cons, hq']
      · simp only [List.find?_cons, decide_eq_false hq']
        exact ih

theorem pyFind_eq_none_iff (m : List (α × β)) (k : α) :
    pyFind m k = none ↔ ∀ p ∈ m, p.1 ≠ k := by
  unfold pyFind
  rw [Option.map_eq_none', List.find?_eq_none]
  simp

theorem pyFind_of_mem (m : List (α × β)) (p : α × β) (hp : p ∈ m) :
    pyFind m p.1 ≠ none := by
  intro hnone
  rw [pyFind_eq_none_iff] at hnone
  exact hnone p hp rfl

end DictLemmas

/-! ## HeaderDict match lemmas -/

namespace HeaderDict

theorem pyMatches_some (v s : String) :
    pyMatches v (some s) = .ok (decide (matchesSpec v s)) := by
  unfold pyMatches matchesSpec
  simp [Bool.decide_or]

theorem firstMatch_some_eq (l : List String) (s : String) :
    firstMatch l (some s) =
      .ok (l.find? (fun v => decide (matchesSpec v s))) := by
  induction l with
  | nil => rfl
  | cons v rest ih =>
    rw [firstMatch, pyMatches_some]
    by_cases hm : matchesSpec v s
    · simp [List.find?_cons, hm]
    · simp only [List.find?_cons, decide_eq_false hm]
      exact ih

theorem matchKey_some_eq (m : T) (key s : String) :
    matchKey m key (some s) =
      .ok ((values m key).find? (fun v => decide (matchesSpec v s))) := by
  unfold matchKey values
  cases hf : pyFind m (headerKey key) with
  | none => rfl
  | some hv =>
    cases hv with
    | one v =>
      dsimp only
      rw [pyMatches_some]
      by_cases hm : matchesSpec v s
      · simp [List.find?_cons, hm]
      · simp [List.find?_cons, decide_eq_false hm, hm]
    | many l => exact firstMatch_some_eq l s

theorem add_find (m : T) (key value : String) (k : String) :
    pyFind (add m key value) k =
      if k = headerKey key then
        some (match pyFind m (headerKey key) with
          | some (.many l) => .many (l ++ [value])
          | some (.one prior) => .many [prior, value]
          | none => .one value)
      else pyFind m k := by
  unfold add
  by_cases hk : k = headerKey key
  · subst hk
    rw [if_pos rfl]
    cases hq : pyFind m (headerKey key) with
    | none => rw [pyFind_pySet_self]
    | some hv => cases hv <;> rw [pyFind_pySet_self]
  · rw [if_neg hk]
    cases hq : pyFind m (headerKey key) with
    | none => rw [pyFind_pySet_ne _ _ _ _ hk]
    | some hv => cases hv <;> rw [pyFind_pySet_ne _ _ _ _ hk]

theorem addAll_aux (l : List (String × String)) :
    ∀ (m : T), (∀ k ml, pyFind m k = some (.many ml) → ml ≠ []) →
    ∀ k ml, pyFind (l.foldl (fun m p => add m p.1 p.2) m) k = some (.many ml) → ml ≠ [] := by
  induction l with
  | nil => exact fun m h => h
  | cons q rest ih =>
    intro m h
    refine ih _ ?_
    intro k ml hf
    rw [add_find] at hf
    by_cases hk : k = headerKey q.1
    · rw [if_pos hk] at hf
      cases hq : pyFind m (headerKey q.1) with
      | none => rw [hq] at hf; exact absurd hf (by simp)
      | some hv =>
        cases hv with
        | one prior => rw [hq] at hf; cases hf; simp
        | many ml0 => rw [hq] at hf; cases hf; simp
    · rw [if_neg hk] at hf
      exact h k ml hf

theorem addAll_many_ne_nil (l : List (String × String)) (k : String) (ml : List String)
    (hf : pyFind (addAll l) k = some (.many ml)) : ml ≠ [] := by
  refine addAll_aux l [] ?_ k ml hf
  intro k' ml' hf'
  simp [pyFind] at hf'

end HeaderDict

/-! ## Reconciliation lemmas (`configLoop` / `configureCameras`) -/

theorem configLoop_evs (snap : List Camera) :
    ∀ (cams old : CamMap) (evs : List SpyEvent),
    configLoop cams old evs snap =
      ((configLoop cams old [] snap).1, (configLoop cams old [] snap).2.1,
       evs ++ (configLoop cams old [] snap).2.2) := by
  induction snap with
  | nil => intro cams old evs; simp [configLoop]
  | cons cam rest ih =>
    intro cams old evs
    cases hf : pyFind cams cam.number with
    | some existing =>
      simp only [configLoop, hf]
      rw [ih _ _ (evs ++ (refresh existing cam).2), ih _ _ ([] ++ (refresh existing cam).2)]
      simp
    | none =>
      simp only [configLoop, hf]
      rw [ih _ _ (evs ++ [SpyEvent.added cam]), ih _ _ ([] ++ [SpyEvent.added cam])]
      simp

theorem configLoop_spec (snap : List Camera) :
    ∀ (m cams old : CamMap),
    (∀ cam ∈ snap, pyFind cams cam.number = pyFind m cam.number) →
    (snap.map Camera.number).Nodup →
    configLoop cams old [] snap =
      (snap.foldl (fun cs cam =>
          pySet cs cam.number
            (match pyFind m cam.number with
             | some c => (refresh c cam).1
             | none => cam)) cams,
       snap.foldl (fun o cam =>
          if (pyFind m cam.number).isSome then pyDel o cam.number else o) old,
       snap.flatMap (fun cam =>
          match pyFind m cam.number with
          | some c => (refresh c cam).2
          | none => [SpyEvent.added cam])) := by
  induction snap with
  | nil => intro m cams old _ _; rfl
  | cons cam rest ih =>
    intro m cams old hl hnd
    have hcam : pyFind cams cam.number = pyFind m cam.number :=
      hl cam (List.mem_cons_self _ _)
    have hndr : (rest.map Camera.number).Nodup := (List.nodup_cons.mp hnd).2
    have hne : ∀ cam' ∈ rest, cam'.number ≠ cam.number := by
      intro cam' h' he
      exact (List.nodup_cons.mp hnd).1 (he ▸ List.mem_map_of_mem Camera.number h')
    have hlr : ∀ g : Camera,
        ∀ cam' ∈ rest, pyFind (pySet cams cam.number g) cam'.number = pyFind m cam'.number := by
      intro g cam' h'
      rw [pyFind_pySet_ne _ _ _ _ (hne cam' h')]
      exact hl cam' (List.mem_cons_of_mem _ h')
    cases hm : pyFind m cam.number with
    | some c =>
      have hc : pyFind cams cam.number = some c := hcam.trans hm
      simp only [configLoop, hc]
      rw [configLoop_evs, ih m _ (pyDel old cam.number) (hlr _) hndr]
      simp [hm]
    | none =>
      have hc : pyFind cams cam.number = none := hcam.trans hm
      simp only [configLoop, hc]
      rw [configLoop_evs, ih m _ old (hlr _) hndr]
      simp [hm]

theorem pyFind_foldl_pySet_not_mem (g : Camera → Camera) (snap : List Camera) :
    ∀ (cams : CamMap) (n : Nat), (∀ cam ∈ snap, cam.number ≠ n) →
    pyFind (snap.foldl (fun cs cam => pySet cs cam.number (g cam)) cams) n = pyFind cams n := by
  induction snap with
  | nil => intro cams n _; rfl
  | cons hd rest ih =>
    intro cams n h
    rw [List.foldl_cons, ih _ n (fun cam hc => h cam (List.mem_cons_of_mem _ hc)),
      pyFind_pySet_ne _ _ _ _ (fun he => h hd (List.mem_cons_self _ _) he.symm)]

theorem pyFind_foldl_pySet_mem (g : Camera → Camera) (snap : List Camera) :
    ∀ (cams : CamMap) (cam : Camera), cam ∈ snap → (snap.map Camera.number).Nodup →
    pyFind (snap.foldl (fun cs cam => pySet cs cam.number (g cam)) cams) cam.number =
      some (g cam) := by
  induction snap with
  | nil => intro cams cam h; simp at h
  | cons hd rest ih =>
    intro cams cam hmem hnd
    rw [List.foldl_cons]
    rcases List.mem_cons.mp hmem with rfl | hr
    · have hne : ∀ cam' ∈ rest, cam'.number ≠ cam.number := by
        intro cam' h' he
        exact (List.nodup_cons.mp hnd).1 (he ▸ List.mem_map_of_mem Camera.number h')
      rw [pyFind_foldl_pySet_not_mem g rest _ _ hne, pyFind_pySet_self]
    · exact ih _ cam hr (List.nodup_cons.mp hnd).2

theorem pyFind_pyDel_none (m : CamMap) (k n : Nat) (h : pyFind m n = none) :
    pyFind (pyDel m k) n = none := by
  rw [pyFind_eq_none_iff] at h ⊢
  intro p hp
  exact h p (List.mem_of_mem_filter hp)

theorem pyFind_foldl_pyDel_none (l : List (Nat × Camera)) :
    ∀ (m : CamMap) (n : Nat), pyFind m n = none →
    pyFind (l.foldl (fun acc p => pyDel acc p.1) m) n = none := by
  induction l with
  | nil => exact fun m n h => h
  | cons q rest ih =>
    intro m n h
    exact ih _ n (pyFind_pyDel_none _ _ _ h)

theorem pyFind_foldl_pyDel_mem (l : List (Nat × Camera)) :
    ∀ (m : CamMap) (n : Nat), (∃ q ∈ l, q.1 = n) →
    pyFind (l.foldl (fun acc p => pyDel acc p.1) m) n = none := by
  induction l with
  | nil => intro m n h; simp at h
  | cons q rest ih =>
    intro m n h
    rw [List.foldl_cons]
    rcases h with ⟨p, hp, hpn⟩
    rcases List.mem_cons.mp hp with rfl | hr
    · subst hpn
      by_cases hrest : ∃ q ∈ rest, q.1 = p.1
      · exact ih _ _ hrest
      · exact pyFind_foldl_pyDel_none rest _ _ (pyFind_pyDel_self _ _)
    · exact ih _ n ⟨p, hr, hpn⟩

theorem pyFind_foldl_pyDel_not_mem (l : List (Nat × Camera)) :
    ∀ (m : CamMap) (n : Nat), (∀ q ∈ l, q.1 ≠ n) →
    pyFind (l.foldl (fun acc p => pyDel acc p.1) m) n = pyFind m n := by
  induction l with
  | nil => exact fun m n _ => rfl
  | cons q rest ih =>
    intro m n h
    rw [List.foldl_cons, ih _ n (fun p hp => h p (List.mem_cons_of_mem _ hp)),
      pyFind_pyDel_ne _ _ _ (fun he => h q (List.mem_cons_self _ _) he.symm)]

theorem foldl_condDel_filter (snap : List Camera) (pred : Camera → Bool) :
    ∀ (old : CamMap),
    snap.foldl (fun o cam => if pred cam then pyDel o cam.number else o) old =
      old.filter (fun p => !(snap.any (fun cam => pred cam && cam.number == p.1))) := by
  induction snap with
  | nil => intro old; simp
  | cons hd rest ih =>
    intro old
    rw [List.foldl_cons]
    by_cases hp : pred hd
    · rw [if_pos hp, ih]
      unfold pyDel
      rw [List.filter_filter]
      apply List.filter_congr
      intro p _
      by_cases he : hd.number = p.1
      · simp [hp, he]
      · have he' : ¬ p.1 = hd.number := fun h => he h.symm
        simp [hp, he, he']
    · rw [if_neg hp, ih]
      apply List.filter_congr
      intro p _
      simp [hp]

theorem pyFind_mem {α β : Type} [DecidableEq α] (m : List (α × β)) (k : α) (v : β)
    (h : pyFind m k = some v) : (k, v) ∈ m := by
  unfold pyFind at h
  cases hf : List.find? (fun p => p.1 = k) m with
  | none => rw [hf] at h; cases h
  | some p =>
    rw [hf] at h
    have h1 : p.1 = k := by simpa using List.find?_some hf
    have h2 := List.mem_of_find?_eq_some hf
    have h3 : (k, v) = p := by
      obtain ⟨a, b⟩ := p
      simp_all
    rw [h3]
    exact h2

theorem configureCameras_eq (m : CamMap) (snap : List Camera)
    (hnd : (snap.map Camera.number).Nodup) :
    configureCameras m snap =
      (((m.filter (fun p =>
            !(snap.any (fun cam => (pyFind m cam.number).isSome && cam.number == p.1)))).foldl
          (fun mm p => pyDel mm p.1)
          (snap.foldl (fun cs cam =>
            pySet cs cam.number
              (match pyFind m cam.number with
               | some c => (refresh c cam).1
               | none => cam)) m)),
       (snap.flatMap fun cam =>
          match pyFind m cam.number with
          | some c => (refresh c cam).2
          | none => [SpyEvent.added cam]) ++
        (m.filter (fun p =>
            !(snap.any (fun cam => (pyFind m cam.number).isSome && cam.number == p.1)))).map
          (fun p => SpyEvent.removed p.1) ++
        [SpyEvent.ready
          ((m.filter (fun p =>
              !(snap.any (fun cam => (pyFind m cam.number).isSome && cam.number == p.1)))).foldl
            (fun mm p => pyDel mm p.1)
            (snap.foldl (fun cs cam =>
              pySet cs cam.number
                (match pyFind m cam.number with
                 | some c => (refresh c cam).1
                 | none => cam)) m))]) := by
  unfold configureCameras
  rw [configLoop_spec snap m m m (fun _ _ => rfl) hnd, foldl_condDel_filter]

theorem old_entries_ne_snap_number (m : CamMap) (snap : List Camera) (cam : Camera)
    (hmem : cam ∈ snap) :
    ∀ q ∈ m.filter (fun p =>
        !(snap.any (fun c' => (pyFind m c'.number).isSome && c'.number == p.1))),
      q.1 ≠ cam.number := by
  intro q hq he
  have hpred := List.of_mem_filter hq
  have hqm := List.mem_of_mem_filter hq
  have hsome : (pyFind m cam.number).isSome := by
    rw [← he]
    cases hv : pyFind m q.1 with
    | none => exact absurd hv (pyFind_of_mem m q hqm)
    | some c => rfl
  simp only [Bool.not_eq_true', List.any_eq_false] at hpred
  have := hpred cam hmem
  rw [hsome, he] at this
  simp at this

theorem pyFind_configure_in_snap (m : CamMap) (snap : List Camera) (cam : Camera)
    (hmem : cam ∈ snap) (hnd : (snap.map Camera.number).Nodup) :
    pyFind (configureCameras m snap).1 cam.number =
      some (match pyFind m cam.number with
            | some c => (refresh c cam).1
            | none => cam) := by
  rw [configureCameras_eq m snap hnd]
  dsimp only
  rw [pyFind_foldl_pyDel_not_mem _ _ _ (old_entries_ne_snap_number m snap cam hmem)]
  exact pyFind_foldl_pySet_mem _ snap m cam hmem hnd

theorem pyFind_configure_not_in_snap (m : CamMap) (snap : List Camera) (n : Nat)
    (hn : ∀ cam ∈ snap, cam.number ≠ n) (hnd : (snap.map Camera.number).Nodup) :
    pyFind (configureCameras m snap).1 n = none := by
  rw [configureCameras_eq m snap hnd]
  dsimp only
  cases hv : pyFind m n with
  | none =>
    apply pyFind_foldl_pyDel_none
    rw [pyFind_foldl_pySet_not_mem _ snap m n hn]
    exact hv
  | some c =>
    apply pyFind_foldl_pyDel_mem
    refine ⟨(n, c), ?_, rfl⟩
    rw [List.mem_filter]
    refine ⟨pyFind_mem m n c hv, ?_⟩
    simp only [Bool.not_eq_true', List.any_eq_false]
    intro c' hc'
    have := hn c' hc'
    simp [this]

theorem keys_pySet_mem {α β : Type} [DecidableEq α] (m : List (α × β)) (k : α) (v : β)
    (h : m.any (fun p => p.1 = k)) :
    (pySet m k v).map Prod.fst = m.map Prod.fst := by
  unfold pySet
  rw [if_pos h, List.map_map]
  apply List.map_congr_left
  intro p _
  by_cases hp : p.1 = k <;> simp [hp]

theorem keys_pySet_nodup {α β : Type} [DecidableEq α] (m : List (α × β)) (k : α) (v : β)
    (h : (m.map Prod.fst).Nodup) : ((pySet m k v).map Prod.fst).Nodup := by
  by_cases hm : m.any (fun p => p.1 = k)
  · rw [keys_pySet_mem m k v hm]
    exact h
  · unfold pySet
    rw [if_neg hm]
    simp only [List.map_append, List.map_cons, List.map_nil]
    rw [List.nodup_append]
    refine ⟨h, List.nodup_singleton k, ?_⟩
    intro a ha hb
    simp only [List.mem_singleton] at hb
    subst hb
    rw [List.mem_map] at ha
    obtain ⟨p, hp, hpk⟩ := ha
    exact hm (by rw [List.any_eq_true]; exact ⟨p, hp, by simpa using hpk⟩)

theorem keys_pyDel_nodup {α β : Type} [DecidableEq α] (m : List (α × β)) (k : α)
    (h : (m.map Prod.fst).Nodup) : ((pyDel m k).map Prod.fst).Nodup := by
  have hs : (pyDel m k).Sublist m := List.filter_sublist m
  exact (hs.map Prod.fst).nodup h

theorem mem_val_unique {α β : Type} [DecidableEq α] (m : List (α × β)) (k : α) (v1 v2 : β)
    (hnd : (m.map Prod.fst).Nodup) (h1 : (k, v1) ∈ m) (h2 : (k, v2) ∈ m) : v1 = v2 := by
  have := List.inj_on_of_nodup_map hnd h1 h2 rfl
  cases this
  rfl

theorem pySet_eq_of_find {α β : Type} [DecidableEq α] (m : List (α × β)) (k : α) (v : β)
    (hnd : (m.map Prod.fst).Nodup) (h : pyFind m k = some v) : pySet m k v = m := by
  have hmem : (k, v) ∈ m := pyFind_mem m k v h
  have hany : m.any (fun p => p.1 = k) := by
    rw [List.any_eq_true]
    exact ⟨(k, v), hmem, by simp⟩
  unfold pySet
  rw [if_pos hany]
  have : ∀ p ∈ m, (if p.1 = k then (k, v) else p) = p := by
    intro p hp
    by_cases hpk : p.1 = k
    · rw [if_pos hpk]
      have hp' : (k, p.2) ∈ m := by
        have : p = (k, p.2) := by
          cases p
          simp_all
        rw [← this]
        exact hp
      rw [mem_val_unique m k v p.2 hnd hmem hp']
      cases p
      simp_all
    · rw [if_neg hpk]
  calc m.map (fun p => if p.1 = k then (k, v) else p) = m.map id := List.map_congr_left this
    _ = m := List.map_id m

theorem foldl_pySet_id (g : Camera → Camera) (snap : List Camera) (m : CamMap)
    (h : ∀ cam ∈ snap, pySet m cam.number (g cam) = m) :
    snap.foldl (fun cs cam => pySet cs cam.number (g cam)) m = m := by
  induction snap with
  | nil => rfl
  | cons hd rest ih =>
    rw [List.foldl_cons, h hd (List.mem_cons_self _ _)]
    exact ih (fun cam hc => h cam (List.mem_cons_of_mem _ hc))

theorem flatMap_eq_nil_of {α β : Type} (l : List α) (f : α → List β)
    (h : ∀ a ∈ l, f a = []) : l.flatMap f = [] := by
  induction l with
  | nil => rfl
  | cons hd rest ih =>
    rw [List.flatMap_cons, h hd (List.mem_cons_self _ _), List.nil_append]
    exact ih (fun a ha => h a (List.mem_cons_of_mem _ ha))

theorem refresh_eq_self (c upd : Camera)
    (h1 : c.name = upd.name) (h2 : c.size = upd.size) (h3 : c.connected = upd.connected)
    (h4 : c.armed = upd.armed) (h5 : c.sensitivity = upd.sensitivity) :
    refresh c upd = (c, []) := by
  have hch : ¬ refreshChange c upd := by
    unfold refreshChange
    simp [h3, h4, h5]
  unfold refresh
  rw [if_neg hch, ← h1, ← h2, ← h3, ← h4, ← h5]

theorem keys_foldl_pySet_nodup (g : Camera → Camera) (snap : List Camera) :
    ∀ (m : CamMap), (m.map Prod.fst).Nodup →
    ((snap.foldl (fun cs cam => pySet cs cam.number (g cam)) m).map Prod.fst).Nodup := by
  induction snap with
  | nil => exact fun m h => h
  | cons hd rest ih =>
    intro m h
    rw [List.foldl_cons]
    exact ih _ (keys_pySet_nodup m hd.number (g hd) h)

theorem keys_foldl_pyDel_nodup (l : List (Nat × Camera)) :
    ∀ (m : CamMap), (m.map Prod.fst).Nodup →
    ((l.foldl (fun acc p => pyDel acc p.1) m).map Prod.fst).Nodup := by
  induction l with
  | nil => exact fun m h => h
  | cons q rest ih =>
    intro m h
    rw [List.foldl_cons]
    exact ih _ (keys_pyDel_nodup m q.1 h)

theorem keys_configure_nodup (m : CamMap) (snap : List Camera)
    (hndm : (m.map Prod.fst).Nodup) (hnds : (snap.map Camera.number).Nodup) :
    (((configureCameras m snap).1).map Prod.fst).Nodup := by
  rw [configureCameras_eq m snap hnds]
  exact keys_foldl_pyDel_nodup _ _ (keys_foldl_pySet_nodup _ snap m hndm)

theorem motions_eq (mask : Nat) :
    motions mask = if claimReasonSet mask = ∅ then {"motion"} else claimReasonSet mask := by
  unfold motions claimReasonSet
  by_cases hsel : (MOTION_CODES.filter (fun p => p.1 &&& mask ≠ 0)).map (fun p => p.2) = []
  · rw [if_pos hsel, hsel]
    simp
  · rw [if_neg hsel, if_neg (fun he => hsel (List.toFinset_eq_empty_iff _ |>.mp he))]

/-! ## Claim theorems -/

/-- C1: the reply path of `Request.incoming` stores each header line
with `self.h_reply[key] = value` — a plain dict assignment — so a
repeated header name overwrites the prior value instead of
accumulating: after two `Set-Cookie` lines the reply map holds only
the second value, while `HeaderDict.add` (the accumulating API the
class documents, bypassed on this path) would keep both values in
arrival order. -/
theorem c1_reply_header_overwrites :
    replyHeaders [("Set-Cookie", "a"), ("Set-Cookie", "b")] =
      [("Set-Cookie", HeaderDict.HVal.one "b")] ∧
    HeaderDict.values (replyHeaders [("Set-Cookie", "a"), ("Set-Cookie", "b")]) "Set-Cookie" =
      ["b"] ∧
    HeaderDict.values (HeaderDict.addAll [("Set-Cookie", "a"), ("Set-Cookie", "b")]) "Set-Cookie" =
      ["a", "b"] :=
  ⟨by decide, by decide, by decide⟩

/-- C2 counterexample: at an I/O error the event-stream reply handler
tears the session down (`_close_events`) and calls the error out, but
does not restart the tap — refuting the claim that an I/O error is
followed by an immediate re-establish. -/
theorem c2_error_counterexample :
    eventReply [] (.ioError "connection reset") =
      [.closeEvents, .calloutCtxError "connection reset"] ∧
    TapAction.restartTap ∉ eventReply [] (.ioError "connection reset") :=
  ⟨rfl, by decide⟩

/-- C2 amended: on body completion (the peer closing the connection)
the session is torn down and immediately restarted, with no backoff
step and no retry counter in the handler; on an I/O error it is torn
down and the error is called out, with no automatic restart. -/
theorem c2_reconnect_policy (cams : CamMap) (e : String) :
    eventReply cams .body = [.closeEvents, .restartTap] ∧
    eventReply cams (.ioError e) = [.closeEvents, .calloutCtxError e] ∧
    TapAction.restartTap ∉ eventReply cams (.ioError e) := by
  refine ⟨rfl, rfl, ?_⟩
  simp [eventReply]

/-- C3: once headers complete, `_prepare_body` clears the scan rule
set (rule set `none`, so remaining bytes arrive raw) and resets the
body buffer; the chunked-decode filter is in the pipeline iff
`Transfer-Encoding` matches `chunked`, the gzip filter iff
`Content-Encoding` matches `gzip`, and when both match the pipeline is
chunked-decode first, then decompression, in data-flow order. -/
theorem c3_body_framing (h : HeaderDict.T) :
    prepareBody h =
      { scan := none, bodyReply := [],
        pipeline :=
          (if matchTruthy h "Transfer-Encoding" "chunked" then [BodyFilter.chunked] else []) ++
          (if matchTruthy h "Content-Encoding" "gzip" then [BodyFilter.gzip] else []) } ∧
    (BodyFilter.chunked ∈ (prepareBody h).pipeline ↔
      matchTruthy h "Transfer-Encoding" "chunked" = true) ∧
    (BodyFilter.gzip ∈ (prepareBody h).pipeline ↔
      matchTruthy h "Content-Encoding" "gzip" = true) ∧
    ((prepareBody h).pipeline = [BodyFilter.chunked, BodyFilter.gzip] ↔
      (matchTruthy h "Transfer-Encoding" "chunked" = true ∧
       matchTruthy h "Content-Encoding" "gzip" = true)) := by
  unfold prepareBody insertFilter
  by_cases h1 : matchTruthy h "Transfer-Encoding" "chunked" <;>
    by_cases h2 : matchTruthy h "Content-Encoding" "gzip" <;>
      simp [h1, h2]

/-- C7: `HeaderDict.match` with a non-None spec returns a stored value
for the (canonicalized) key exactly when some stored value matches the
spec — lower-cased equality or lower-cased semicolon-prefix — and any
returned value is such a stored value. -/
theorem c7_match_predicate (m : HeaderDict.T) (key s : String) :
    ((∃ v, HeaderDict.matchKey m key (some s) = .ok (some v)) ↔
      ∃ v ∈ HeaderDict.values m key, HeaderDict.matchesSpec v s) ∧
    ((∃ v, HeaderDict.matchKey m key (some s) = .ok (some v) ∧
        v ∈ HeaderDict.values m key ∧ HeaderDict.matchesSpec v s) ∨
     (HeaderDict.matchKey m key (some s) = .ok none ∧
        ∀ v ∈ HeaderDict.values m key, ¬ HeaderDict.matchesSpec v s)) := by
  rw [HeaderDict.matchKey_some_eq]
  cases hf : (HeaderDict.values m key).find? (fun v => decide (HeaderDict.matchesSpec v s)) with
  | none =>
    have hnone : ∀ v ∈ HeaderDict.values m key, ¬ HeaderDict.matchesSpec v s := by
      intro v hv hm
      have := List.find?_eq_none.mp hf v hv
      simp [hm] at this
    refine ⟨⟨?_, ?_⟩, Or.inr ⟨rfl, hnone⟩⟩
    · rintro ⟨v, hv⟩
      exact absurd hv (by simp)
    · rintro ⟨v, hv, hm⟩
      exact absurd hm (hnone v hv)
  | some v =>
    have hvmem := List.mem_of_find?_eq_some hf
    have hvmatch : HeaderDict.matchesSpec v s := by simpa using List.find?_some hf
    exact ⟨⟨fun _ => ⟨v, hvmem, hvmatch⟩, fun _ => ⟨v, rfl⟩⟩,
      Or.inl ⟨v, rfl, hvmem, hvmatch⟩⟩

/-- C10: calling `HeaderDict.match` with the spec left at its default
`None` on a key that is present raises `AttributeError` — the spec is
lower-cased before the `value is None` test — instead of returning the
stored value. -/
theorem c10_none_spec_raises (l : List (String × String)) (key : String)
    (h : pyFind (HeaderDict.addAll l) (HeaderDict.headerKey key) ≠ none) :
    HeaderDict.matchKey (HeaderDict.addAll l) key none = .error "AttributeError" := by
  unfold HeaderDict.matchKey
  cases hf : pyFind (HeaderDict.addAll l) (HeaderDict.headerKey key) with
  | none => exact absurd hf h
  | some hv =>
    cases hv with
    | one v => rfl
    | many ml =>
      have hne := HeaderDict.addAll_many_ne_nil l _ ml hf
      cases ml with
      | nil => exact absurd rfl hne
      | cons v rest => rfl

/-- C10 witness: a present `Content-Type` key makes the default-spec
match raise. -/
theorem c10_none_spec_raises_witness :
    pyFind (HeaderDict.addAll [("Content-Type", "text/html")])
      (HeaderDict.headerKey "Content-Type") ≠ none ∧
    HeaderDict.matchKey (HeaderDict.addAll [("Content-Type", "text/html")]) "Content-Type" none =
      .error "AttributeError" :=
  ⟨by decide, c10_none_spec_raises [("Content-Type", "text/html")] "Content-Type" (by decide)⟩

/-- C8: an event-tap record whose camera number is not in the live
camera map triggers a full-state refresh (`update()`) only: the record
is not dispatched to any camera and no error is called out. -/
theorem c8_unknown_camera (cams : CamMap) (ts : String) (seq cnum : Nat) (rec : CamRecord)
    (h : pyFind cams cnum = none) :
    eventReply cams (.cam ts seq cnum rec) = [.update] ∧
    (∀ n r, TapAction.camDispatch n r ∉ eventReply cams (.cam ts seq cnum rec)) ∧
    (∀ e, TapAction.calloutCtxError e ∉ eventReply cams (.cam ts seq cnum rec)) := by
  have he : eventReply cams (.cam ts seq cnum rec) = [.update] := by
    unfold eventReply
    dsimp only
    rw [h]
  refine ⟨he, fun n r => ?_, fun e => ?_⟩ <;> rw [he] <;> simp

/-- C8 witness: camera number 9 is unknown to the {1,2,3} live map, so
the record only triggers a refresh. -/
theorem c8_unknown_camera_witness :
    pyFind liveMap 9 = none ∧
    eventReply liveMap (.cam "12345" 7 9 .motion) = [.update] :=
  ⟨by decide, (c8_unknown_camera liveMap "12345" 7 9 .motion (by decide)).1⟩

/-- C9 counterexample: at bitmask 0 the camera emits reason set
{"motion"} (the `or ["motion"]` fallback in `motions`), while the
claimed set of set-bit names is empty. -/
theorem c9_zero_bitmask_counterexample :
    cameraEventTap cam1 (.trigger .M 0) =
      (cam1, [.calloutTrigger "recording" (motions 0)]) ∧
    motions 0 = {"motion"} ∧
    claimReasonSet 0 = ∅ ∧
    motions 0 ≠ claimReasonSet 0 :=
  ⟨rfl, by decide, by decide, by decide⟩

/-- C9 amended: a `TRIGGER_M` record on a known camera dispatches to
that camera, which emits `trigger("recording", motions(mask))`; when
at least one listed bit is set, `motions(mask)` is exactly the set of
names whose code bit is set (bitmask 3 gives {"motion","audio"}); when
no listed bit is set it falls back to {"motion"}. -/
theorem c9_trigger_recording (cams : CamMap) (ts : String) (seq cnum : Nat) (c : Camera)
    (mask : Nat) (h : pyFind cams cnum = some c) :
    eventReply cams (.cam ts seq cnum (.trigger .M mask)) =
      [.camDispatch cnum (.trigger .M mask)] ∧
    cameraEventTap c (.trigger .M mask) =
      (c, [.calloutTrigger "recording" (motions mask)]) ∧
    (claimReasonSet mask ≠ ∅ → motions mask = claimReasonSet mask) ∧
    (claimReasonSet mask = ∅ → motions mask = {"motion"}) ∧
    motions 3 = {"motion", "audio"} := by
  refine ⟨?_, rfl, ?_, ?_, by decide⟩
  · unfold eventReply
    dsimp only
    rw [h]
  · intro hne
    rw [motions_eq, if_neg hne]
  · intro hemp
    rw [motions_eq, if_pos hemp]

/-- C9 witness: camera 1 is known to the live map; bitmask 3 produces
`trigger("recording", {"motion","audio"})`. -/
theorem c9_trigger_recording_witness :
    pyFind liveMap 1 = some cam1 ∧
    eventReply liveMap (.cam "12345" 7 1 (.trigger .M 3)) =
      [.camDispatch 1 (.trigger .M 3)] ∧
    cameraEventTap cam1 (.trigger .M 3) =
      (cam1, [.calloutTrigger "recording" {"motion", "audio"}]) := by
  have h := c9_trigger_recording liveMap "12345" 7 1 cam1 3 (by decide)
  refine ⟨by decide, h.1, ?_⟩
  rw [h.2.1, h.2.2.2.2]

theorem refresh_snd (c upd : Camera) :
    (refresh c upd).2 = if refreshChange c upd then [SpyEvent.status c.number] else [] := rfl

/-- C4: for a camera number present in both the live map and the
snapshot, reconciliation merges the snapshot's `name`, `size`,
`connected`, `armed` and `sensitivity` into the existing record while
keeping its object identity, and a `'status'` notification for that
camera is emitted exactly when the change flag over {armed-state set,
connectivity, sensitivity} is set. -/
theorem c4_merge_in_place (m : CamMap) (snap : List Camera) (n : Nat) (c cam : Camera)
    (hkey : ∀ p ∈ m, p.2.number = p.1)
    (hnds : (snap.map Camera.number).Nodup)
    (hfind : pyFind m n = some c)
    (hmem : cam ∈ snap) (hnum : cam.number = n) :
    (∃ merged, pyFind (configureCameras m snap).1 n = some merged ∧
      merged.ident = c.ident ∧
      merged.name = cam.name ∧ merged.size = cam.size ∧
      merged.connected = cam.connected ∧ merged.armed = cam.armed ∧
      merged.sensitivity = cam.sensitivity) ∧
    (SpyEvent.status n ∈ (configureCameras m snap).2 ↔ refreshChange c cam) := by
  have hcn : c.number = n := hkey (n, c) (pyFind_mem m n c hfind)
  constructor
  · refine ⟨(refresh c cam).1, ?_, rfl, rfl, rfl, rfl, rfl, rfl⟩
    have h1 := pyFind_configure_in_snap m snap cam hmem hnds
    rw [hnum, hfind] at h1
    exact h1
  · have h2 : (configureCameras m snap).2 =
        (snap.flatMap fun cam =>
          match pyFind m cam.number with
          | some c => (refresh c cam).2
          | none => [SpyEvent.added cam]) ++
        (m.filter (fun p =>
            !(snap.any (fun c' => (pyFind m c'.number).isSome && c'.number == p.1)))).map
          (fun p => SpyEvent.removed p.1) ++
        [SpyEvent.ready (configureCameras m snap).1] := by
      have hc := configureCameras_eq m snap hnds
      rw [hc]
    rw [h2]
    constructor
    · intro hin
      rcases List.mem_append.mp hin with hin1 | hin1
      · rcases List.mem_append.mp hin1 with hin2 | hin2
        · rw [List.mem_flatMap] at hin2
          obtain ⟨cam', hmem', hin3⟩ := hin2
          cases hv : pyFind m cam'.number with
          | none =>
            rw [hv] at hin3
            simp at hin3
          | some c' =>
            rw [hv] at hin3
            dsimp only at hin3
            rw [refresh_snd] at hin3
            by_cases hch : refreshChange c' cam'
            · rw [if_pos hch] at hin3
              simp only [List.mem_singleton, SpyEvent.status.injEq] at hin3
              have hcn' : c'.number = cam'.number :=
                hkey (cam'.number, c') (pyFind_mem m cam'.number c' hv)
              have heqnum : cam'.number = cam.number := by
                rw [← hcn', ← hin3, hnum]
              have : cam' = cam :=
                List.inj_on_of_nodup_map hnds hmem' hmem heqnum
              subst this
              rw [hnum, hfind] at hv
              cases hv
              exact hch
            · rw [if_neg hch] at hin3
              simp at hin3
        · rw [List.mem_map] at hin2
          obtain ⟨p, _, hp⟩ := hin2
          cases hp
      · simp at hin1
    · intro hch
      apply List.mem_append.mpr
      left
      apply List.mem_append.mpr
      left
      rw [List.mem_flatMap]
      refine ⟨cam, hmem, ?_⟩
      rw [hnum, hfind]
      dsimp only
      rw [refresh_snd, if_pos hch, hcn]
      exact List.mem_singleton_self _

/-- C4 witness: camera 2 is live and in the snapshot; its record is
merged in place (identity 102 kept) and no status fires since the
tracked fields are unchanged. -/
theorem c4_merge_in_place_witness :
    pyFind liveMap 2 = some cam2 ∧
    (∃ merged, pyFind (configureCameras liveMap snapList).1 2 = some merged ∧
      merged.ident = cam2.ident ∧ merged.name = snap2.name ∧ merged.size = snap2.size ∧
      merged.connected = snap2.connected ∧ merged.armed = snap2.armed ∧
      merged.sensitivity = snap2.sensitivity) ∧
    (SpyEvent.status 2 ∈ (configureCameras liveMap snapList).2 ↔ refreshChange cam2 snap2) := by
  have h := c4_merge_in_place liveMap snapList 2 cam2 snap2 (by decide) (by decide) (by decide)
    (by decide) (by decide)
  exact ⟨by decide, h.1, h.2⟩

/-- C5: reconciliation inserts every snapshot-only camera with an
`added` notification, removes every live-only camera with a `removed`
notification, and ends with exactly one `ready` notification carrying
the resulting map; concretely, live {1,2,3} against snapshot {2,3,4}
yields added(4), removed(1), cameras 2 and 3 merged in place, and
`ready` with map {2,3,4}. -/
theorem c5_reconciliation (m : CamMap) (snap : List Camera)
    (hnds : (snap.map Camera.number).Nodup) :
    (∀ cam ∈ snap, pyFind m cam.number = none →
      SpyEvent.added cam ∈ (configureCameras m snap).2 ∧
      pyFind (configureCameras m snap).1 cam.number = some cam) ∧
    (∀ p ∈ m, (∀ cam ∈ snap, cam.number ≠ p.1) →
      SpyEvent.removed p.1 ∈ (configureCameras m snap).2 ∧
      pyFind (configureCameras m snap).1 p.1 = none) ∧
    (∃ evs', (configureCameras m snap).2 =
        evs' ++ [SpyEvent.ready (configureCameras m snap).1] ∧
      ∀ mm, SpyEvent.ready mm ∉ evs') ∧
    configureCameras liveMap snapList =
      (mergedLive, [SpyEvent.added snap4, SpyEvent.removed 1, SpyEvent.ready mergedLive]) := by
  have h2 : (configureCameras m snap).2 =
      (snap.flatMap fun cam =>
        match pyFind m cam.number with
        | some c => (refresh c cam).2
        | none => [SpyEvent.added cam]) ++
      (m.filter (fun p =>
          !(snap.any (fun c' => (pyFind m c'.number).isSome && c'.number == p.1)))).map
        (fun p => SpyEvent.removed p.1) ++
      [SpyEvent.ready (configureCameras m snap).1] := by
    rw [configureCameras_eq m snap hnds]
  refine ⟨?_, ?_, ?_, by decide⟩
  · intro cam hmem hnone
    constructor
    · rw [h2]
      apply List.mem_append.mpr
      left
      apply List.mem_append.mpr
      left
      rw [List.mem_flatMap]
      refine ⟨cam, hmem, ?_⟩
      rw [hnone]
      exact List.mem_singleton_self _
    · have h1 := pyFind_configure_in_snap m snap cam hmem hnds
      rw [hnone] at h1
      exact h1
  · intro p hp hnum
    constructor
    · rw [h2]
      apply List.mem_append.mpr
      left
      apply List.mem_append.mpr
      right
      rw [List.mem_map]
      refine ⟨p, ?_, rfl⟩
      rw [List.mem_filter]
      refine ⟨hp, ?_⟩
      simp only [Bool.not_eq_true', List.any_eq_false]
      intro c' hc'
      simp [hnum c' hc']
    · exact pyFind_configure_not_in_snap m snap p.1 hnum hnds
  · refine ⟨(snap.flatMap fun cam =>
        match pyFind m cam.number with
        | some c => (refresh c cam).2
        | none => [SpyEvent.added cam]) ++
      (m.filter (fun p =>
          !(snap.any (fun c' => (pyFind m c'.number).isSome && c'.number == p.1)))).map
        (fun p => SpyEvent.removed p.1), ?_, ?_⟩
    · rw [h2, List.append_assoc]
    · intro mm hmm
      rcases List.mem_append.mp hmm with hin | hin
      · rw [List.mem_flatMap] at hin
        obtain ⟨cam', hmem', hin3⟩ := hin
        cases hv : pyFind m cam'.number with
        | none =>
          rw [hv] at hin3
          simp at hin3
        | some c' =>
          rw [hv] at hin3
          dsimp only at hin3
          rw [refresh_snd] at hin3
          by_cases hch : refreshChange c' cam'
          · rw [if_pos hch] at hin3
            simp at hin3
          · rw [if_neg hch] at hin3
            simp at hin3
      · rw [List.mem_map] at hin
        obtain ⟨p, _, hp⟩ := hin
        cases hp

/-- C5 witness: the concrete {1,2,3} vs {2,3,4} scenario, instantiated
through the theorem. -/
theorem c5_reconciliation_witness :
    pyFind liveMap snap4.number = none ∧
    SpyEvent.added snap4 ∈ (configureCameras liveMap snapList).2 ∧
    SpyEvent.removed 1 ∈ (configureCameras liveMap snapList).2 ∧
    pyFind (configureCameras liveMap snapList).1 1 = none := by
  have h := c5_reconciliation liveMap snapList (by decide)
  have ha := h.1 snap4 (by decide) (by decide)
  have hb := h.2.1 (1, cam1) (by decide) (by decide)
  exact ⟨by decide, ha.1, hb.1, hb.2⟩

/-- C6: reconciliation is idempotent — re-running with the snapshot
that produced the current map emits no added, removed or status
notification (only the trailing `ready`) and leaves the camera map
unchanged. -/
theorem c6_idempotent (m : CamMap) (snap : List Camera)
    (hndm : (m.map Prod.fst).Nodup) (hnds : (snap.map Camera.number).Nodup) :
    configureCameras (configureCameras m snap).1 snap =
      ((configureCameras m snap).1, [SpyEvent.ready (configureCameras m snap).1]) := by
  have hnd1 : (((configureCameras m snap).1).map Prod.fst).Nodup :=
    keys_configure_nodup m snap hndm hnds
  have hfind : ∀ cam ∈ snap, pyFind (configureCameras m snap).1 cam.number =
      some (match pyFind m cam.number with
            | some c => (refresh c cam).1
            | none => cam) :=
    fun cam hc => pyFind_configure_in_snap m snap cam hc hnds
  have hrefresh : ∀ cam ∈ snap,
      refresh (match pyFind m cam.number with
               | some c => (refresh c cam).1
               | none => cam) cam =
        ((match pyFind m cam.number with
          | some c => (refresh c cam).1
          | none => cam), []) := by
    intro cam hc
    cases hv : pyFind m cam.number with
    | some c => exact refresh_eq_self _ _ rfl rfl rfl rfl rfl
    | none => exact refresh_eq_self _ _ rfl rfl rfl rfl rfl
  have hid : ∀ cam ∈ snap,
      pySet (configureCameras m snap).1 cam.number
        (match pyFind (configureCameras m snap).1 cam.number with
         | some c => (refresh c cam).1
         | none => cam) = (configureCameras m snap).1 := by
    intro cam hc
    rw [hfind cam hc]
    dsimp only
    rw [hrefresh cam hc]
    exact pySet_eq_of_find _ _ _ hnd1 (hfind cam hc)
  have hfilter : ((configureCameras m snap).1).filter
      (fun p => !(snap.any (fun c' =>
        (pyFind (configureCameras m snap).1 c'.number).isSome && c'.number == p.1))) = [] := by
    rw [List.filter_eq_nil_iff]
    intro p hp
    have hex : ∃ cam ∈ snap, cam.number = p.1 := by
      by_contra hno
      push_neg at hno
      exact pyFind_of_mem _ p hp (pyFind_configure_not_in_snap m snap p.1 hno hnds)
    obtain ⟨cam, hc, he⟩ := hex
    have hany : (snap.any fun c' =>
        (pyFind (configureCameras m snap).1 c'.number).isSome && c'.number == p.1) = true := by
      rw [List.any_eq_true]
      refine ⟨cam, hc, ?_⟩
      rw [hfind cam hc]
      simp [he]
    simp [hany]
  have hnil : ∀ cam ∈ snap,
      (match pyFind (configureCameras m snap).1 cam.number with
       | some c => (refresh c cam).2
       | none => [SpyEvent.added cam]) = ([] : List SpyEvent) := by
    intro cam hc
    rw [hfind cam hc]
    dsimp only
    rw [hrefresh cam hc]
  rw [configureCameras_eq (configureCameras m snap).1 snap hnds,
    foldl_pySet_id _ snap _ hid, hfilter, flatMap_eq_nil_of snap _ hnil]
  simp

/-- C6 witness: re-running the {2,3,4} snapshot over the map it
produced emits only `ready` and leaves the map unchanged. -/
theorem c6_idempotent_witness :
    configureCameras (configureCameras liveMap snapList).1 snapList =
      ((configureCameras liveMap snapList).1,
       [SpyEvent.ready (configureCameras liveMap snapList).1]) :=
  c6_idempotent liveMap snapList (by decide) (by decide)
